/-
Verification development for the Xikipedia selection-and-delivery core.

This file gives a shallow embedding, in Lean, of:
  * the `ChunkCache` LRU cache (source: `src/dagster_definitions/SETUP.md`,
    section 4.1, class `ChunkCache`);
  * the chunk fetch deduplication logic (source:
    `src/memory/scopes/full-wikipedia-chunked-architecture.md`, section 6.3,
    `ensureArticleText` / `fetchChunk`);
  * the algorithm worker (source: `src/unnamed/part_008`,
    "Xikipedia Algorithm Worker"): `getDecayFactor`, `markPostSeen`,
    `getRandomPost`, `getNextPost`, `serializePost`, `fillPrefetchQueue`
    and the `UPDATE_FILTERS` / `RESET` message handlers,
and proves/refutes the frozen specification claims about them.

Modelling conventions:
  * JavaScript `Math.random()` is modelled as an explicit stream of rational
    draws `rng : Nat -> Rat` together with a cursor `rix`; each call to the
    stream consumes one draw.  All quantified theorems hold for every stream;
    counterexamples pick a concrete adversarial stream.
  * JavaScript numbers used for scores are modelled as real numbers, because
    the decay factor `Math.pow(0.5, ageHours)` is irrational for fractional
    hour values.  All branching that a concrete evaluation has to pass
    through is on decidable (`Nat`/`Rat`/`Bool`) data.
  * JavaScript `Set` objects are modelled as lists with set semantics
    (membership-tested insertion); `Map` objects as association lists with
    JS `Map` semantics (insertion order preserved, `set` overwrites in
    place, `delete` removes).
  * Mutation of shared article objects (the worker mutates elements of
    `pagesArr` in place) is modelled by indexing: a selection returns the
    index of the chosen element and the state updates the array at that
    index.
-/

import Mathlib

/-! ## JS `Map` association-list model -/

/-- JS `Map.prototype.set`: overwrite in place if the key is present
(keeping its position in insertion order), otherwise append. -/
def jsMapSet {α : Type} : List (Nat × α) → Nat → α → List (Nat × α)
  | [], k, v => [(k, v)]
  | (k', v') :: rest, k, v =>
      if k' = k then (k, v) :: rest else (k', v') :: jsMapSet rest k v

/-- JS `Map.prototype.delete`: remove the entry for the key. -/
def jsMapDelete {α : Type} (l : List (Nat × α)) (k : Nat) : List (Nat × α) :=
  l.filter (fun e => e.1 ≠ k)

/-- JS `Map.prototype.get`: the value stored at the key, if any. -/
def jsMapGet {α : Type} (l : List (Nat × α)) (k : Nat) : Option α :=
  (l.find? (fun e => e.1 = k)).map (·.2)

/-- Keys of a JS `Map` model. -/
def jsMapKeys {α : Type} (l : List (Nat × α)) : List Nat :=
  l.map (·.1)

/-! ## ChunkCache (src/dagster_definitions/SETUP.md, section 4.1)

```javascript
class ChunkCache {
  constructor(maxChunks = 10) {
    this.maxChunks = maxChunks;
    this.cache = new Map(); // chunkId -> ChunkData
    this.accessOrder = [];  // LRU tracking: most recent at end
  }
  ...
}
```
The cached payload type is opaque to the cache, so the model is polymorphic
in it. -/

structure ChunkCache (α : Type) where
  maxChunks : Nat
  cache : List (Nat × α)
  accessOrder : List Nat

namespace ChunkCache

/-- A freshly constructed cache (`new ChunkCache(maxChunks)`). -/
def empty (α : Type) (maxChunks : Nat) : ChunkCache α :=
  ⟨maxChunks, [], []⟩

/-- The eviction loop of `set`:
```javascript
while (this.cache.size >= this.maxChunks && this.accessOrder.length > 0) {
  const evictId = this.accessOrder.shift();
  this.cache.delete(evictId);
}
```
Each iteration shifts one id off `accessOrder`, so the loop is structural
recursion on the access-order list. -/
def evictLoop {α : Type} (maxChunks : Nat) :
    List Nat → List (Nat × α) → List Nat × List (Nat × α)
  | [], cache => ([], cache)
  | e :: rest, cache =>
      if maxChunks ≤ cache.length then evictLoop maxChunks rest (jsMapDelete cache e)
      else (e :: rest, cache)

/-- `ChunkCache.set(chunkId, data)`: evict while at capacity, then insert and
record the id as most recently used. -/
def set {α : Type} (c : ChunkCache α) (chunkId : Nat) (data : α) : ChunkCache α :=
  let (order, cache) := evictLoop c.maxChunks c.accessOrder c.cache
  { c with cache := jsMapSet cache chunkId data, accessOrder := order ++ [chunkId] }

/-- `ChunkCache.get(chunkId)`: on a hit, move the id to the
most-recently-used position (end of `accessOrder`). -/
def get {α : Type} (c : ChunkCache α) (chunkId : Nat) : Option α × ChunkCache α :=
  match jsMapGet c.cache chunkId with
  | some data =>
      (some data,
        { c with accessOrder := c.accessOrder.filter (fun id => id ≠ chunkId) ++ [chunkId] })
  | none => (none, c)

/-- `ChunkCache.has(chunkId)`. -/
def has {α : Type} (c : ChunkCache α) (chunkId : Nat) : Bool :=
  (jsMapGet c.cache chunkId).isSome

/-- Apply a sequence of `set(chunkId, data)` calls in order. -/
def applySets {α : Type} (c : ChunkCache α) (ops : List (Nat × α)) : ChunkCache α :=
  ops.foldl (fun acc op => acc.set op.1 op.2) c

/-- Invariant tying the two fields together: every cached key is tracked in
`accessOrder`.  It holds for a fresh cache and is preserved by `set`. -/
def KeysTracked {α : Type} (c : ChunkCache α) : Prop :=
  ∀ k ∈ jsMapKeys c.cache, k ∈ c.accessOrder

end ChunkCache

/-! ## Chunk fetch deduplication
(src/memory/scopes/full-wikipedia-chunked-architecture.md, section 6.3)

```javascript
const chunkCache = new Map();
const chunkFetchPromises = new Map(); // Prevent duplicate fetches

async function ensureArticleText(article) {
  if (article.text !== null) return;
  const chunkId = article.chunkId;
  if (chunkCache.has(chunkId)) { ... return; }
  if (!chunkFetchPromises.has(chunkId)) {
    const promise = fetchChunk(chunkId);
    chunkFetchPromises.set(chunkId, promise);
  }
  const chunk = await chunkFetchPromises.get(chunkId);
  chunkCache.set(chunkId, chunk);
  ...
}
```

The async function is split at its unique suspension point (`await`):
`ensureArticleTextSync` is everything before the `await` (it runs atomically
on the JS event loop) and `ensureArticleTextResume` is the continuation that
runs when the awaited promise settles.  Promises are identified by ids;
creating one (calling `fetchChunk`, which immediately issues `fetch(url)`)
appends the chunk id to `networkLog`, the model of issued network
requests. -/

structure ChunkArticle where
  id : Nat
  text : String
deriving DecidableEq

/-- A decoded chunk payload as consumed by `ensureArticleText`
(`chunk.articles.find(a => a.id === article.id)`). -/
structure Chunk where
  articles : List ChunkArticle
deriving DecidableEq

structure FsArticle where
  id : Nat
  chunkId : Nat
  text : Option String
deriving DecidableEq

structure FetchState where
  chunkCache : List (Nat × Chunk)
  chunkFetchPromises : List (Nat × Nat)
  nextPromiseId : Nat
  networkLog : List Nat
deriving DecidableEq

/-- Result of the synchronous part of `ensureArticleText`: either the call
returns without suspending, or it suspends awaiting a promise. -/
inductive EnsureStep where
  | done (a : FsArticle)
  | awaiting (a : FsArticle) (promiseId : Nat)
deriving DecidableEq

/-- How the awaited promise settles. -/
inductive Settle where
  | resolved (c : Chunk)
  | rejected
deriving DecidableEq

/-- Text extraction shared by the cache-hit and resume paths:
`chunk.articles.find(a => a.id === article.id)`, then assign
`article.text` if found. -/
def applyChunkText (a : FsArticle) (c : Chunk) : FsArticle :=
  match c.articles.find? (fun x => x.id = a.id) with
  | some x => { a with text := some x.text }
  | none => a

/-- `ensureArticleText` up to (and including) the decision to await:
early return when text is loaded, cache hit, promise-map hit, or creation of
a fresh fetch promise (which issues the one network request). -/
def ensureArticleTextSync (a : FsArticle) (s : FetchState) : EnsureStep × FetchState :=
  if a.text.isSome then (.done a, s)
  else
    match jsMapGet s.chunkCache a.chunkId with
    | some chunk => (.done (applyChunkText a chunk), s)
    | none =>
        match jsMapGet s.chunkFetchPromises a.chunkId with
        | some pid => (.awaiting a pid, s)
        | none =>
            let pid := s.nextPromiseId
            (.awaiting a pid,
              { s with
                  chunkFetchPromises := jsMapSet s.chunkFetchPromises a.chunkId pid,
                  nextPromiseId := pid + 1,
                  networkLog := s.networkLog ++ [a.chunkId] })

/-- The continuation of `ensureArticleText` after `await`: on resolution the
chunk is written into `chunkCache` and the text extracted; on rejection the
`await` throws, so no further statement runs and the state is unchanged.
Note that neither branch removes the entry from `chunkFetchPromises`. -/
def ensureArticleTextResume (a : FsArticle) (r : Settle) (s : FetchState) :
    Except Unit FsArticle × FetchState :=
  match r with
  | .rejected => (.error (), s)
  | .resolved c =>
      (.ok (applyChunkText a c),
        { s with chunkCache := jsMapSet s.chunkCache a.chunkId c })

/-! ## Algorithm worker (src/unnamed/part_008)

The worker keeps module-level mutable state; the model gathers it into an
`EngineState` record.  `Math.random()` is the stream `rng` read at cursor
`rix`; `Date.now()` is the fixed field `now` (the wall clock is treated as
constant within one message-handler run). -/

/-- One record of `pagesArr`.  `thumb` models the truthiness of the
thumbnail hash (`post.thumb ? 5 : 0`); `seen` models `post.seen ?? 0`
(an absent JS field reads as `0`); `score` is the mutable field written by
the scoring pass. -/
structure Post where
  id : Nat
  title : String
  thumb : Bool
  chunkId : Option Nat
  text : Option String
  allCategories : List String
  seen : Nat
  recommendedBecause : Option (List String)
  score : ℝ

/-- Default used for out-of-range array access (`pagesArr[i]`); with the
random draws in `[0,1)` and a non-empty pool it is never produced. -/
def defaultPost : Post :=
  ⟨0, "", false, none, none, [], 0, none, 0⟩

/-- The worker's module-level mutable state, plus the modelled randomness
stream and clock. -/
structure EngineState where
  pagesArr : List Post
  categoryScores : String → ℚ
  seenPostIds : List Nat
  categoryLastEngaged : String → Option Int
  hiddenCategories : List String
  reducedCategories : List String
  boostedCategories : List String
  exploredCategories : List String
  algorithmAggressiveness : ℚ
  exploreMode : Bool
  postsSinceRandom : Nat
  lastTopCategory : Option String
  consecutiveSameCategory : Nat
  prefetchQueue : List Post
  now : Int
  rng : Nat → ℚ
  rix : Nat

/-- `PREFETCH_SIZE = 3`. -/
def PREFETCH_SIZE : Nat := 3

/-- JS `Set.prototype.add` on a list with set semantics. -/
def idsInsert (l : List Nat) (x : Nat) : List Nat :=
  if x ∈ l then l else l ++ [x]

/-- Insertion-ordered deduplication, modelling iteration over a JS `Set`
built by repeated `add`. -/
def listDedup (l : List String) : List String :=
  l.foldl (fun acc c => if c ∈ acc then acc else acc ++ [c]) []

/-- One call of `Math.random()`. -/
def drawRand (s : EngineState) : ℚ × EngineState :=
  (s.rng s.rix, { s with rix := s.rix + 1 })

/-- JS `Math.floor` on an exact rational: floor division of numerator by
(positive) denominator. -/
def mathFloor (q : ℚ) : Int :=
  Int.fdiv q.num q.den

/-- `Math.floor(Math.random() * pagesArr.length)`. -/
def drawIndex (s : EngineState) : Nat × EngineState :=
  let (r, s') := drawRand s
  (Int.toNat (mathFloor (r * s.pagesArr.length)), s')

/-- `pagesArr[i]` (with the never-hit out-of-range default). -/
def getPostAt (s : EngineState) (i : Nat) : Post :=
  s.pagesArr.getD i defaultPost

/-- `getDecayFactor` (src/unnamed/part_008, lines 43-50):
```javascript
function getDecayFactor(category) {
    const lastEngaged = categoryLastEngaged[category];
    if (!lastEngaged) return 0.5; // Never engaged = 50% weight
    const ageMs = Date.now() - lastEngaged;
    const ageHours = ageMs / (1000 * 60 * 60);
    return Math.max(0.1, Math.pow(0.5, ageHours));
}
```
`!lastEngaged` is true both for an absent entry and for the (physically
unreachable) timestamp `0`, which is falsy in JS.  `Math.pow` on a
fractional exponent is the real power, hence the real codomain. -/
noncomputable def getDecayFactor (categoryLastEngaged : String → Option Int)
    (now : Int) (category : String) : ℝ :=
  match categoryLastEngaged category with
  | none => 0.5
  | some lastEngaged =>
      if lastEngaged = 0 then 0.5
      else
        let ageMs : Int := now - lastEngaged
        let ageHours : ℝ := (ageMs : ℝ) / (1000 * 60 * 60)
        max 0.1 ((0.5 : ℝ) ^ ageHours)

/-- `markPostSeen` (src/unnamed/part_008, lines 53-57), acting on the array
slot `i` that the JS `post` reference aliases:
```javascript
function markPostSeen(post) {
    seenPostIds.add(post.id);
    post.seen = (post.seen ?? 0) + 1;
}
```
Returns the mutated record together with the updated state. -/
def markPostSeenAt (i : Nat) (s : EngineState) : Post × EngineState :=
  let p := getPostAt s i
  let p' := { p with seen := p.seen + 1 }
  (p', { s with seenPostIds := idsInsert s.seenPostIds p.id,
                pagesArr := s.pagesArr.set i p' })

/-- The retry loop shared by `getRandomPost` (1000 attempts) and the
"trying harder" loop of `getNextPost` (10000 attempts): repeatedly draw a
random index and return the first whose post is unseen. -/
def randomScanUnseen : Nat → EngineState → Option Nat × EngineState
  | 0, s => (none, s)
  | fuel + 1, s =>
      let (i, s') := drawIndex s
      if (getPostAt s i).id ∈ s.seenPostIds then randomScanUnseen fuel s'
      else (some i, s')

/-- Common tail of `getRandomPost`: mark the chosen slot seen and set
`recommendedBecause = ['🎲 Serendipity']` on it. -/
def finishRandomPost (i : Nat) (s : EngineState) : Post × EngineState :=
  let (p, s1) := markPostSeenAt i s
  let p' := { p with recommendedBecause := some ["🎲 Serendipity"] }
  (p', { s1 with pagesArr := s1.pagesArr.set i p' })

/-- `getRandomPost` (src/unnamed/part_008, lines 60-75): scan up to 1000
random draws for an unseen post; if all fail, allow a repeat with one final
unconditional draw. -/
def getRandomPost (s : EngineState) : Post × EngineState :=
  match randomScanUnseen 1000 s with
  | (some i, s') => finishRandomPost i s'
  | (none, s') =>
      let (i, s'') := drawIndex s'
      finishRandomPost i s''

/-- `convertCat` (src/unnamed/part_008, lines 32-40).  The loose JS equality
`e.id == cat` between a number and the id string is modelled by comparing
decimal strings. -/
def convertCat (pagesArr : List Post) (cat : String) : String :=
  if cat = "" then cat
  else if cat.startsWith "p:" then
    let c := cat.drop 2
    match pagesArr.find? (fun e => toString e.id = c) with
    | some page => page.title
    | none => c
  else (cat.take 1).toUpper ++ (cat.drop 1).toLower

/-- The category-roulette block of `getNextPost` (lines 100-115): with
probability 0.1 pick a uniformly random category among the categories of the
first 1000 pool records that is neither explored, hidden, nor one of the two
name categories. -/
def rouletteDraw (s : EngineState) : Option String × EngineState :=
  let (r, s') := drawRand s
  if r < 1/10 then
    let allCats := listDedup (((s'.pagesArr.take 1000).map Post.allCategories).flatten)
    let unexplored := allCats.filter (fun c =>
      c ∉ s'.exploredCategories ∧ c ∉ s'.hiddenCategories ∧
      c ≠ "given names" ∧ c ≠ "surnames")
    if unexplored.isEmpty then (none, s')
    else
      let (r2, s'') := drawRand s'
      (some (unexplored.getD (Int.toNat (mathFloor (r2 * unexplored.length))) ""), s'')
  else (none, s')

/-- `[...Array(n)].map(() => pagesArr[Math.floor(Math.random() * pagesArr.length)])`
as the list of drawn indices. -/
def drawIndices : Nat → EngineState → List Nat × EngineState
  | 0, s => ([], s)
  | n + 1, s =>
      let (i, s') := drawIndex s
      let (rest, s'') := drawIndices n s'
      (i :: rest, s'')

/-- The per-record scoring pass of `getNextPost` (lines 124-158):
initial score `(post.thumb ? 5 : 0) + (3 ** (post.seen ?? 0) - 1) * -500000`
plus, for each category, the decayed aggressiveness-scaled category score
with boost/reduce/variety/roulette adjustments. -/
noncomputable def scorePost (s : EngineState) (varietyPenaltyCategory : Option String)
    (rouletteBoostCategory : Option String) (aggFactor : ℚ) (p : Post) : ℝ :=
  let initialScore : ℝ :=
    (if p.thumb then 5 else 0) + ((3 : ℝ) ^ p.seen - 1) * (-500000)
  p.allCategories.foldl (fun sum cat =>
    let baseScore : ℝ := ((s.categoryScores cat : ℚ) : ℝ) * (aggFactor : ℝ)
    let catScore := baseScore * getDecayFactor s.categoryLastEngaged s.now cat
    let catScore := if cat ∈ s.boostedCategories then catScore + 2000 else catScore
    let catScore := if cat ∈ s.reducedCategories then catScore - 1500 else catScore
    let catScore := if varietyPenaltyCategory = some cat then catScore - 5000 else catScore
    let catScore := if rouletteBoostCategory = some cat then catScore + 3000 else catScore
    sum + catScore) initialScore

/-- `post.score = postScore` for every sampled record (the sample aliases
`pagesArr` slots, so the writes land in the array). -/
def writeScores (s : EngineState) (scored : List (Nat × Post)) : EngineState :=
  { s with pagesArr := scored.foldl (fun arr e => arr.set e.1 e.2) s.pagesArr }

/-- `Math.min(...potentialPosts.map(e => e.score))` (the empty case is
guarded by the surrounding length check). -/
noncomputable def minScoreOf : List (Nat × Post) → ℝ
  | [] => 0
  | q :: rest => rest.foldl (fun m e => min m e.2.score) q.2.score

open scoped Classical

/-- The weighted-random walk of the pick step (lines 182-191), popping
candidates from the end of the array:
```javascript
while (scoreCount < targetScore && potentialPosts.length) {
  const potentialPost = potentialPosts.pop();
  bestPost = potentialPost;
  scoreCount += potentialPost.score - minScore;
}
```
The first argument is the candidate list already reversed (pop order).

Real-number comparisons below are classical, hence the scoped instance. -/
noncomputable def weightedWalk :
    List (Nat × Post) → ℝ → ℝ → ℝ → (Nat × Post) → (Nat × Post)
  | [], _, _, _, best => best
  | q :: rest, target, minScore, acc, best =>
      if acc < target then weightedWalk rest target minScore (acc + (q.2.score - minScore)) q
      else best

/-- The highest-score walk of the pick step (lines 193-199).  The running
maximum starts at `-Infinity`, modelled as `none`; any real score beats
it. -/
noncomputable def maxLoop :
    List (Nat × Post) → (Nat × Post) → Option ℝ → (Nat × Post)
  | [], best, _ => best
  | q :: rest, _, none => maxLoop rest q (some q.2.score)
  | q :: rest, best, some h =>
      if h < q.2.score then maxLoop rest q (some q.2.score)
      else maxLoop rest best (some h)

/-- The pick step of `getNextPost` (lines 177-200): `bestPost` starts as
`potentialPosts[0]`; with `Math.random() < 0.4` the weighted-random walk
runs; otherwise a second draw is made and only if it exceeds `0.3` does the
highest-score walk run — if neither branch runs, `bestPost` remains the
first sampled record. -/
noncomputable def pickBest (potentialPosts : List (Nat × Post)) (s : EngineState) :
    (Nat × Post) × EngineState :=
  let best0 := potentialPosts.getD 0 (0, defaultPost)
  let (r1, s1) := drawRand s
  if r1 < 2/5 then
    let minScore := minScoreOf potentialPosts
    let maxScore := potentialPosts.foldl (fun sum q => sum + q.2.score - minScore) 0
    let (r2, s2) := drawRand s1
    (weightedWalk potentialPosts.reverse ((r2 : ℝ) * maxScore) minScore 0 best0, s2)
  else
    let (r2, s2) := drawRand s1
    if r2 > 3/10 then (maxLoop potentialPosts best0 none, s2)
    else (best0, s2)

/-- Stable descending insertion used to model the stable JS
`sort((a, b) => b.score - a.score)` on the category-contribution pairs. -/
def insertDescBy (x : String × ℚ) : List (String × ℚ) → List (String × ℚ)
  | [] => [x]
  | y :: ys => if x.2 ≥ y.2 then x :: y :: ys else y :: insertDescBy x ys

/-- Stable descending sort by score. -/
def sortDescBy (l : List (String × ℚ)) : List (String × ℚ) :=
  l.foldr insertDescBy []

/-- The roulette-feedback override (lines 229-231): if a roulette category
was active and the winner carries it, replace the explanation. -/
def rouletteOverride (i : Nat) (rouletteBoostCategory : Option String)
    (p : Post) (s : EngineState) : Post × EngineState :=
  match rouletteBoostCategory with
  | some rc =>
      if rc ∈ p.allCategories then
        let p' := { p with recommendedBecause := some ["🎰 " ++ convertCat s.pagesArr rc] }
        (p', { s with pagesArr := s.pagesArr.set i p' })
      else (p, s)
  | none => (p, s)

/-- The bookkeeping tail of the scored path (lines 202-233): mark the winner
seen, compute the top-3 positive category contributions for
`recommendedBecause`, update `lastTopCategory` / `consecutiveSameCategory`,
then apply the roulette override. -/
def markAndBookkeep (i : Nat) (rouletteBoostCategory : Option String)
    (s : EngineState) : Post × EngineState :=
  let (p, s1) := markPostSeenAt i s
  let categoryContributions :=
    ((p.allCategories.map (fun cat => (cat, s1.categoryScores cat))).filter
      (fun c => 0 < c.2) |> sortDescBy).take 3
  if categoryContributions.isEmpty then
    let p' := { p with recommendedBecause := none }
    let s2 := { s1 with pagesArr := s1.pagesArr.set i p',
                        lastTopCategory := none,
                        consecutiveSameCategory := 0 }
    rouletteOverride i rouletteBoostCategory p' s2
  else
    let because := some (categoryContributions.map (fun c => convertCat s1.pagesArr c.1))
    let p' := { p with recommendedBecause := because }
    let topCat := (categoryContributions.headD ("", 0)).1
    let s2 :=
      if some topCat = s1.lastTopCategory then
        { s1 with consecutiveSameCategory := s1.consecutiveSameCategory + 1 }
      else
        { s1 with lastTopCategory := some topCat, consecutiveSameCategory := 1 }
    let s3 := { s2 with pagesArr := s2.pagesArr.set i p' }
    rouletteOverride i rouletteBoostCategory p' s3

/-- The "trying harder" retry of `getNextPost` (lines 161-175), taken when
every record of the 10000-draw sample was already seen: scan up to 10000
fresh draws for an unseen record and mark the first hit; if none is found,
accept a repeat with one final unconditional draw ("true fallback -
everything seen"). -/
def sampleExhaustedRetry (s : EngineState) : Post × EngineState :=
  match randomScanUnseen 10000 s with
  | (some i, s') => markPostSeenAt i s'
  | (none, s') =>
      let (i, s'') := drawIndex s'
      markPostSeenAt i s''

/-- The filter/score/pick tail of the scored pass (lines 120-233), applied
to the sampled indices `idxs` in state `s4` (after the roulette draw and the
10000 sample draws): filter out already-seen posts, score the survivors,
write the scores back, then either take the exhaustion retry (empty
filtered sample) or pick a winner and do the bookkeeping. -/
noncomputable def scoredPick (varietyPenaltyCategory rouletteBoostCategory : Option String)
    (aggFactor : ℚ) (idxs : List Nat) (s4 : EngineState) : Post × EngineState :=
  -- hard block: filter out already-seen posts, then score the survivors
  let unseenIdxs := idxs.filter (fun i => (getPostAt s4 i).id ∉ s4.seenPostIds)
  let potentialPosts : List (Nat × Post) := unseenIdxs.map (fun i =>
    let p := getPostAt s4 i
    (i, { p with score := scorePost s4 varietyPenaltyCategory
                            rouletteBoostCategory aggFactor p }))
  let s5 := writeScores s4 potentialPosts
  if unseenIdxs.isEmpty then
    -- all sampled posts were seen: try harder, then accept a repeat
    sampleExhaustedRetry s5
  else
    let best := (pickBest potentialPosts s5).1
    let s6 := (pickBest potentialPosts s5).2
    markAndBookkeep best.1 rouletteBoostCategory s6

/-- The scored selection pass of `getNextPost` (lines 93-233), entered when
neither the explore/zero-aggressiveness shortcut nor the serendipity
injection fired: variety enforcement, category roulette, the 10000-draw
sample with the hard seen-filter, then the `scoredPick` tail.
(`lastTopCategory` truthiness: null is falsy.) -/
noncomputable def scoredSelection (s2 : EngineState) : Post × EngineState :=
  -- variety enforcement
  let varietyPenaltyCategory : Option String :=
    if 2 ≤ s2.consecutiveSameCategory then s2.lastTopCategory else none
  let rouletteBoostCategory := (rouletteDraw s2).1
  let s3 := (rouletteDraw s2).2
  let aggFactor : ℚ := s2.algorithmAggressiveness / 50
  let idxs := (drawIndices 10000 s3).1
  let s4 := (drawIndices 10000 s3).2
  scoredPick varietyPenaltyCategory rouletteBoostCategory aggFactor idxs s4

/-- `getNextPost` (src/unnamed/part_008, lines 78-234). -/
noncomputable def getNextPost (s0 : EngineState) : Post × EngineState :=
  -- Explore mode OR aggressiveness 0: return purely random post
  if s0.exploreMode ∨ s0.algorithmAggressiveness = 0 then getRandomPost s0
  else
    -- serendipity injection: postsSinceRandom++, threshold 5 + floor(r*6)
    let s1 := { s0 with postsSinceRandom := s0.postsSinceRandom + 1 }
    let (r, s2) := drawRand s1
    if 5 + Int.toNat (mathFloor (r * 6)) ≤ s1.postsSinceRandom then
      getRandomPost { s2 with postsSinceRandom := 0 }
    else
      scoredSelection s2

/-- Replays the filter/score step of `scoredPick` and reports whether it
ended in the exhaustion fallback. -/
noncomputable def scoredPickFallback (varietyPenaltyCategory rouletteBoostCategory : Option String)
    (aggFactor : ℚ) (idxs : List Nat) (s4 : EngineState) : Bool :=
  let unseenIdxs := idxs.filter (fun i => (getPostAt s4 i).id ∉ s4.seenPostIds)
  let potentialPosts : List (Nat × Post) := unseenIdxs.map (fun i =>
    let p := getPostAt s4 i
    (i, { p with score := scorePost s4 varietyPenaltyCategory
                            rouletteBoostCategory aggFactor p }))
  let s5 := writeScores s4 potentialPosts
  unseenIdxs.isEmpty && (randomScanUnseen 10000 s5).1.isNone

/-- Replays the scored pass exactly and reports whether it ended in the
exhaustion fallback: the sample filter left nothing unseen and the 10000
retry draws all hit seen records. -/
noncomputable def scoredSelectionFallback (s2 : EngineState) : Bool :=
  let varietyPenaltyCategory : Option String :=
    if 2 ≤ s2.consecutiveSameCategory then s2.lastTopCategory else none
  let rouletteBoostCategory := (rouletteDraw s2).1
  let s3 := (rouletteDraw s2).2
  let aggFactor : ℚ := s2.algorithmAggressiveness / 50
  let idxs := (drawIndices 10000 s3).1
  let s4 := (drawIndices 10000 s3).2
  scoredPickFallback varietyPenaltyCategory rouletteBoostCategory aggFactor idxs s4

/-- The fallback-exhaustion predicate for the run of `getNextPost` from
state `s0`: the branch taken ended up with every bounded random draw hitting
an already-seen record, which is the only way `getNextPost` can return an
already-seen id.  It replays the same helper calls on the same states as
`getNextPost` itself. -/
noncomputable def fallbackExhausted (s0 : EngineState) : Bool :=
  if s0.exploreMode ∨ s0.algorithmAggressiveness = 0 then
    (randomScanUnseen 1000 s0).1.isNone
  else
    let s1 := { s0 with postsSinceRandom := s0.postsSinceRandom + 1 }
    let (r, s2) := drawRand s1
    if 5 + Int.toNat (mathFloor (r * 6)) ≤ s1.postsSinceRandom then
      (randomScanUnseen 1000 { s2 with postsSinceRandom := 0 }).1.isNone
    else
      scoredSelectionFallback s2

/-- `serializePost` (lines 237-248): the transferable copy keeps id, title,
text, thumb, chunkId, categories, `recommendedBecause` and score; the `seen`
counter is not part of the serialized shape (modelled as `0`). -/
def serializePost (p : Post) : Post :=
  { p with seen := 0 }

/-- The body of `fillPrefetchQueue`, with fuel: each iteration appends
exactly one serialized `getNextPost` result while the queue is below
`PREFETCH_SIZE`. -/
noncomputable def fillAux : Nat → EngineState → EngineState
  | 0, s => s
  | fuel + 1, s =>
      if s.prefetchQueue.length < PREFETCH_SIZE then
        let (p, s') := getNextPost s
        fillAux fuel { s' with prefetchQueue := s'.prefetchQueue ++ [serializePost p] }
      else s

/-- `fillPrefetchQueue` (lines 262-272): `PREFETCH_SIZE` iterations of fuel
suffice because each pass grows the queue by one. -/
noncomputable def fillPrefetchQueue (s : EngineState) : EngineState :=
  fillAux PREFETCH_SIZE s

/-- Payload of an `UPDATE_FILTERS` message; `none` models an absent (falsy)
field, which leaves the corresponding set unchanged. -/
structure FiltersPayload where
  hidden : Option (List String)
  reduced : Option (List String)
  boosted : Option (List String)

/-- The synchronous prefix of the `UPDATE_FILTERS` handler (lines 355-360):
install the new filter sets and clear the prefetch queue. -/
def updateFiltersClear (payload : FiltersPayload) (s : EngineState) : EngineState :=
  { s with hiddenCategories := payload.hidden.getD s.hiddenCategories,
           reducedCategories := payload.reduced.getD s.reducedCategories,
           boostedCategories := payload.boosted.getD s.boostedCategories,
           prefetchQueue := [] }

/-- The full `UPDATE_FILTERS` handler (lines 355-362): clear, then refill. -/
noncomputable def processUpdateFilters (payload : FiltersPayload) (s : EngineState) :
    EngineState :=
  fillPrefetchQueue (updateFiltersClear payload s)

/-- The synchronous prefix of the `RESET` handler (lines 388-395):
`delete p.seen` / `delete p.recommendedBecause` on every record, clear the
prefetch queue, zero the transient counters.  `seenPostIds` is not
touched. -/
def resetCore (s : EngineState) : EngineState :=
  { s with pagesArr := s.pagesArr.map (fun p =>
             { p with seen := 0, recommendedBecause := none }),
           prefetchQueue := [],
           postsSinceRandom := 0,
           lastTopCategory := none,
           consecutiveSameCategory := 0 }

/-- The full `RESET` handler (lines 388-397): reset, then refill the
queue. -/
noncomputable def processReset (s : EngineState) : EngineState :=
  fillPrefetchQueue (resetCore s)

/-- Queue/seen invariant: every record sitting in the prefetch queue has
already been marked seen. -/
def QueueSeenInv (s : EngineState) : Prop :=
  ∀ p ∈ s.prefetchQueue, p.id ∈ s.seenPostIds

/-- The winner is a maximum-score record with ties broken by encounter
order: the candidate list splits as `l1 ++ q :: l2` where everything before
`q` scores strictly below `q` and everything after scores at most `q`. -/
def FirstMax (posts : List (Nat × Post)) (q : Nat × Post) : Prop :=
  ∃ l1 l2, posts = l1 ++ q :: l2 ∧
    (∀ p ∈ l1, p.2.score < q.2.score) ∧
    (∀ p ∈ l2, p.2.score ≤ q.2.score)

/-! ## Concrete fixtures used by the closed theorems below -/

/-- A minimal pool record with the given id (no thumbnail, no categories). -/
def mkTestPost (i : Nat) : Post :=
  ⟨i, "", false, none, none, [], 0, none, 0⟩

/-- A base engine state over the given pool: empty filter sets, zero
scores, explore mode on (so selection takes the `getRandomPost` path), and
the constant-zero random stream (every draw picks index 0). -/
def baseEngineState (pool : List Post) (seen : List Nat) : EngineState where
  pagesArr := pool
  categoryScores := fun _ => 0
  seenPostIds := seen
  categoryLastEngaged := fun _ => none
  hiddenCategories := []
  reducedCategories := []
  boostedCategories := []
  exploredCategories := []
  algorithmAggressiveness := 50
  exploreMode := true
  postsSinceRandom := 0
  lastTopCategory := none
  consecutiveSameCategory := 0
  prefetchQueue := []
  now := 0
  rng := fun _ => 0
  rix := 0

/-- Pool of two records where record 0 is already seen and record 1 is not;
the constant-zero stream draws record 0 on every attempt. -/
def c1exState : EngineState := baseEngineState [mkTestPost 0, mkTestPost 1] [0]

/-- Pool of one unseen record; the very first draw finds it. -/
def c1wState : EngineState := baseEngineState [mkTestPost 0] []

/-- A state whose seen-id set is the nonempty `[5]`. -/
def c2state : EngineState := baseEngineState [mkTestPost 0, mkTestPost 1] [5]

/-- Six-record pool, nothing seen yet, with a random stream whose first six
draws pick indices 0, 1, 2, 3, 4, 5 in order: the `INIT`-time queue fill
consumes records 0, 1, 2. -/
def c10init : EngineState :=
  { baseEngineState
      [mkTestPost 0, mkTestPost 1, mkTestPost 2, mkTestPost 3, mkTestPost 4, mkTestPost 5]
      [] with
    rng := fun k =>
      if k = 1 then mkRat 1 6 else if k = 2 then mkRat 2 6
      else if k = 3 then mkRat 3 6 else if k = 4 then mkRat 4 6
      else if k = 5 then mkRat 5 6 else 0 }

/-- The state after the `INIT` fill followed by an `UPDATE_FILTERS` message
with an empty payload: the queue built from records 0, 1, 2 is discarded
and rebuilt (consuming 3, 4, 5), while ids 0, 1, 2 stay marked seen. -/
noncomputable def c10state : EngineState :=
  processUpdateFilters ⟨none, none, none⟩ (fillPrefetchQueue c10init)

/-- Scored sample for the pick-step analysis: candidate 0 with score 0,
candidate 1 with score 1. -/
def c3postA : Nat × Post := (0, { mkTestPost 0 with score := 0 })

/-- Second pick-step candidate, strictly better score. -/
def c3postB : Nat × Post := (1, { mkTestPost 1 with score := 1 })

/-- The scored sample `[c3postA, c3postB]`. -/
def c3posts : List (Nat × Post) := [c3postA, c3postB]

/-- Random stream for the pick step: first draw 1/2 (so not below 0.4),
second draw 1/5 (so not above 0.3): neither pick branch runs. -/
def c3state : EngineState :=
  { baseEngineState [] [] with rng := fun k => if k = 0 then mkRat 1 2 else mkRat 1 5 }

/-- The article used by the fetch-failure scenario: id 1 in chunk 5, text
not yet loaded. -/
def c7article : FsArticle := ⟨1, 5, none⟩

/-- Empty fetch subsystem state. -/
def c7s0 : FetchState := ⟨[], [], 0, []⟩

/-- State after the first `ensureArticleText(c7article)` reaches its
`await`: one network request issued, promise 0 in flight for chunk 5. -/
def c7s1 : FetchState := (ensureArticleTextSync c7article c7s0).2

/-- State after that promise rejects: the continuation throws, so nothing
changes — in particular the in-flight marker for chunk 5 survives. -/
def c7s2 : FetchState := (ensureArticleTextResume c7article .rejected c7s1).2

/-- Category-engagement fixture for the decay claim: category "x" engaged
at millisecond 3600000 (one hour after epoch), nothing else engaged. -/
def c4engaged : String → Option Int :=
  fun c => if c = "x" then some 3600000 else none

/-! ## Lemmas about the JS map model -/

theorem jsMapGet_jsMapSet_self {α : Type} (l : List (Nat × α)) (k : Nat) (v : α) :
    jsMapGet (jsMapSet l k v) k = some v := by
  induction l with
  | nil => simp [jsMapSet, jsMapGet]
  | cons e rest ih =>
      by_cases h : e.1 = k
      · simp [jsMapSet, jsMapGet, h]
      · simpa [jsMapSet, jsMapGet, h] using ih

theorem jsMapSet_length_le {α : Type} (l : List (Nat × α)) (k : Nat) (v : α) :
    (jsMapSet l k v).length ≤ l.length + 1 := by
  induction l with
  | nil => simp [jsMapSet]
  | cons e rest ih =>
      by_cases h : e.1 = k
      · simp [jsMapSet, h]
      · simp only [jsMapSet, if_neg h, List.length_cons]
        omega

theorem mem_jsMapKeys_jsMapSet {α : Type} (l : List (Nat × α)) (k : Nat) (v : α)
    (j : Nat) (hj : j ∈ jsMapKeys (jsMapSet l k v)) : j ∈ jsMapKeys l ∨ j = k := by
  induction l with
  | nil => simpa [jsMapSet, jsMapKeys] using hj
  | cons e rest ih =>
      by_cases h : e.1 = k
      · simp only [jsMapSet, if_pos h, jsMapKeys, List.map_cons, List.mem_cons] at hj
        rcases hj with hj | hj
        · right; exact hj
        · left; simp [jsMapKeys, List.mem_cons]; right
          simpa [jsMapKeys] using hj
      · simp only [jsMapSet, if_neg h, jsMapKeys, List.map_cons, List.mem_cons] at hj
        rcases hj with hj | hj
        · left; simp [jsMapKeys, hj]
        · rcases ih (by simpa [jsMapKeys] using hj) with h' | h'
          · left; simp [jsMapKeys] at h' ⊢; right; exact h'
          · right; exact h'

theorem mem_jsMapKeys_jsMapDelete {α : Type} (l : List (Nat × α)) (k : Nat)
    (j : Nat) (hj : j ∈ jsMapKeys (jsMapDelete l k)) : j ∈ jsMapKeys l ∧ j ≠ k := by
  simp only [jsMapDelete, jsMapKeys, List.mem_map] at hj
  obtain ⟨e, he, rfl⟩ := hj
  rw [List.mem_filter] at he
  refine ⟨List.mem_map.2 ⟨e, he.1, rfl⟩, by simpa using he.2⟩

/-! ## ChunkCache lemmas -/

namespace ChunkCache

theorem evictLoop_spec {α : Type} (maxChunks : Nat) :
    ∀ (order : List Nat) (cache : List (Nat × α)),
      (∀ k ∈ jsMapKeys cache, k ∈ order) →
      (∀ k ∈ jsMapKeys (evictLoop maxChunks order cache).2,
          k ∈ (evictLoop maxChunks order cache).1) ∧
      ((evictLoop maxChunks order cache).2.length < maxChunks ∨
        (evictLoop maxChunks order cache).2 = []) := by
  intro order
  induction order with
  | nil =>
      intro cache h
      have hnil : cache = [] := by
        cases cache with
        | nil => rfl
        | cons e rest => exact absurd (h e.1 (by simp [jsMapKeys])) (by simp)
      subst hnil
      simp [evictLoop, jsMapKeys]
  | cons e rest ih =>
      intro cache h
      by_cases hlen : maxChunks ≤ cache.length
      · have hsub : ∀ k ∈ jsMapKeys (jsMapDelete cache e), k ∈ rest := by
          intro k hk
          obtain ⟨hk1, hk2⟩ := mem_jsMapKeys_jsMapDelete cache e k hk
          rcases List.mem_cons.mp (h k hk1) with h' | h'
          · exact absurd h' hk2
          · exact h'
        have heq : evictLoop maxChunks (e :: rest) cache =
            evictLoop maxChunks rest (jsMapDelete cache e) := by
          simp [evictLoop, if_pos hlen]
        rw [heq]
        exact ih (jsMapDelete cache e) hsub
      · have heq : evictLoop maxChunks (e :: rest) cache = (e :: rest, cache) := by
          simp [evictLoop, if_neg hlen]
        rw [heq]
        exact ⟨h, Or.inl (by show cache.length < maxChunks; omega)⟩

theorem set_keysTracked_and_bound {α : Type} (c : ChunkCache α)
    (hinv : KeysTracked c) (hcap : 1 ≤ c.maxChunks) (k : Nat) (v : α) :
    KeysTracked (c.set k v) ∧ (c.set k v).cache.length ≤ c.maxChunks ∧
      (c.set k v).maxChunks = c.maxChunks := by
  obtain ⟨htrack, hlen⟩ := evictLoop_spec c.maxChunks c.accessOrder c.cache hinv
  refine ⟨?_, ?_, rfl⟩
  · intro j hj
    rcases mem_jsMapKeys_jsMapSet _ k v j hj with h' | h'
    · simp only [ChunkCache.set, List.mem_append]
      exact Or.inl (htrack j h')
    · simp [ChunkCache.set, h']
  · have hstep := jsMapSet_length_le (evictLoop c.maxChunks c.accessOrder c.cache).2 k v
    rcases hlen with h' | h'
    · simp only [ChunkCache.set]
      omega
    · simp only [ChunkCache.set, h'] at hstep ⊢
      simpa [jsMapSet] using hcap

theorem applySets_keysTracked_and_bound {α : Type} (ops : List (Nat × α)) :
    ∀ (c : ChunkCache α), KeysTracked c → 1 ≤ c.maxChunks →
      c.cache.length ≤ c.maxChunks →
      KeysTracked (c.applySets ops) ∧
      (c.applySets ops).cache.length ≤ c.maxChunks ∧
      (c.applySets ops).maxChunks = c.maxChunks := by
  induction ops with
  | nil => intro c h1 h2 h3; exact ⟨h1, h3, rfl⟩
  | cons op rest ih =>
      intro c h1 h2 h3
      obtain ⟨g1, g2, g3⟩ := set_keysTracked_and_bound c h1 h2 op.1 op.2
      have := ih (c.set op.1 op.2) g1 (g3 ▸ h2) (g3 ▸ g2)
      simpa [ChunkCache.applySets, g3] using this

end ChunkCache

/-- Claim C5 (amended): for every sequence of `set(chunkId, entry)` calls on
a `ChunkCache` constructed with capacity `maxChunks ≥ 1`, the number of
cached entries never exceeds `maxChunks`.  (The unamended claim, with no
lower bound on the capacity, fails at capacity 0: see the
counterexample.) -/
theorem C5_cache_bound {α : Type} (maxChunks : Nat) (hcap : 1 ≤ maxChunks)
    (ops : List (Nat × α)) :
    ((ChunkCache.empty α maxChunks).applySets ops).cache.length ≤ maxChunks := by
  have h := ChunkCache.applySets_keysTracked_and_bound ops
    (ChunkCache.empty α maxChunks)
    (by intro k hk; simp [ChunkCache.empty, jsMapKeys] at hk)
    (by simpa [ChunkCache.empty] using hcap)
    (by simp [ChunkCache.empty])
  simpa [ChunkCache.empty] using h.2.1

/-- Witness for C5: capacity 1, two inserts, bound 1 holds. -/
theorem C5_cache_bound_witness :
    1 ≤ 1 ∧ ((ChunkCache.empty Nat 1).applySets [(1, 10), (2, 20)]).cache.length ≤ 1 :=
  ⟨by decide, C5_cache_bound 1 (by decide) [(1, 10), (2, 20)]⟩

/-- Counterexample to claim C5 as stated: a cache constructed with capacity
0 still stores the entry inserted by `set` (the eviction loop stops once
`accessOrder` is empty, and the insert is unconditional), so its size 1
exceeds the configured capacity 0. -/
theorem C5_counterexample :
    ¬ ((ChunkCache.empty Nat 0).applySets [(1, 10)]).cache.length ≤ 0 := by
  decide

/-- LRU trace for C6: a capacity-3 cache after inserting entries for ids
1, 2, 3 in that order. -/
def c6abc : ChunkCache String :=
  (((ChunkCache.empty String 3).set 1 "A").set 2 "B").set 3 "C"

/-- The C6 trace continued: `get 1` (moving id 1 to the most-recently-used
position), then inserting id 4, which must evict one entry. -/
def c6final : ChunkCache String :=
  ((c6abc.get 1).2).set 4 "D"

/-- Claim C6: `ChunkCache` eviction is access-order LRU: with capacity 3,
after inserting entries for ids 1, 2, 3 (in that order), calling `get 1`,
then inserting id 4, the evicted entry is id 2 (least recently used), and
ids 1, 3, 4 remain cached. -/
theorem C6_lru_eviction :
    c6final.has 1 = true ∧ c6final.has 2 = false ∧
    c6final.has 3 = true ∧ c6final.has 4 = true := by
  decide

/-! ## Chunk fetch claims -/

/-- Claim C7 (amended): when the fetch for a chunk fails, the chunk cache is
left unchanged and the error is surfaced — but the in-flight marker is NOT
cleared (neither branch of `ensureArticleText` ever deletes from
`chunkFetchPromises`), so a subsequent retry through `ensureArticleText` is
handed the same stale rejected promise and issues no fresh network
request. -/
theorem C7_fetch_failure (a : FsArticle) (s : FetchState) (pid : Nat)
    (htext : a.text = none)
    (hcache : jsMapGet s.chunkCache a.chunkId = none)
    (hp : jsMapGet s.chunkFetchPromises a.chunkId = some pid) :
    ensureArticleTextResume a .rejected s = (.error (), s) ∧
    (ensureArticleTextSync a s).1 = .awaiting a pid ∧
    (ensureArticleTextSync a s).2 = s := by
  refine ⟨rfl, ?_, ?_⟩ <;>
    simp [ensureArticleTextSync, htext, hcache, hp]

/-- Witness for C7 at the concrete failed-fetch state `c7s2`: chunk 5 was
requested once, its promise 0 rejected, and the retry is handed promise 0
again with no state change. -/
theorem C7_fetch_failure_witness :
    (c7article.text = none ∧
      jsMapGet c7s2.chunkCache c7article.chunkId = none ∧
      jsMapGet c7s2.chunkFetchPromises c7article.chunkId = some 0) ∧
    (ensureArticleTextResume c7article .rejected c7s2 = (.error (), c7s2) ∧
      (ensureArticleTextSync c7article c7s2).1 = .awaiting c7article 0 ∧
      (ensureArticleTextSync c7article c7s2).2 = c7s2) :=
  ⟨⟨by decide, by decide, by decide⟩,
    C7_fetch_failure c7article c7s2 0 (by decide) (by decide) (by decide)⟩

/-- Counterexample to claim C7 as stated: after the fetch for chunk 5
fails, the in-flight marker is still present (the claim says it is
cleared), and the retry issues no fresh network request — the network log
still records exactly the one original request — receiving instead the
already-rejected promise 0. -/
theorem C7_counterexample :
    jsMapGet c7s2.chunkFetchPromises 5 = some 0 ∧
    c7s2.networkLog = [5] ∧
    (ensureArticleTextSync c7article c7s2).1 = .awaiting c7article 0 ∧
    (ensureArticleTextSync c7article c7s2).2.networkLog = [5] := by
  decide

/-- Claim C8: two concurrent `ensureArticleText` calls for articles of the
same (uncached, not-in-flight) chunk issue exactly one network request; the
second caller is handed the same in-flight promise, so both callers receive
the same resolved chunk value. -/
theorem C8_fetch_dedup (s : FetchState) (a₁ a₂ : FsArticle) (cid : Nat)
    (h₁c : a₁.chunkId = cid) (h₂c : a₂.chunkId = cid)
    (h₁t : a₁.text = none) (h₂t : a₂.text = none)
    (hcache : jsMapGet s.chunkCache cid = none)
    (hp : jsMapGet s.chunkFetchPromises cid = none) :
    (ensureArticleTextSync a₁ s).1 = .awaiting a₁ s.nextPromiseId ∧
    (ensureArticleTextSync a₂ (ensureArticleTextSync a₁ s).2).1 =
      .awaiting a₂ s.nextPromiseId ∧
    (ensureArticleTextSync a₂ (ensureArticleTextSync a₁ s).2).2.networkLog =
      s.networkLog ++ [cid] ∧
    jsMapGet (ensureArticleTextSync a₂ (ensureArticleTextSync a₁ s).2).2.chunkFetchPromises
      cid = some s.nextPromiseId ∧
    (∀ c st, (ensureArticleTextResume a₁ (.resolved c) st).1 = .ok (applyChunkText a₁ c) ∧
      (ensureArticleTextResume a₂ (.resolved c) st).1 = .ok (applyChunkText a₂ c)) := by
  have h1 : ensureArticleTextSync a₁ s =
      (.awaiting a₁ s.nextPromiseId,
        { s with
            chunkFetchPromises := jsMapSet s.chunkFetchPromises a₁.chunkId s.nextPromiseId,
            nextPromiseId := s.nextPromiseId + 1,
            networkLog := s.networkLog ++ [a₁.chunkId] }) := by
    simp [ensureArticleTextSync, h₁t, h₁c, hcache, hp]
  have hpset : jsMapGet (jsMapSet s.chunkFetchPromises a₁.chunkId s.nextPromiseId) cid =
      some s.nextPromiseId := by
    rw [h₁c]; exact jsMapGet_jsMapSet_self _ _ _
  have h2 : ensureArticleTextSync a₂ (ensureArticleTextSync a₁ s).2 =
      (.awaiting a₂ s.nextPromiseId, (ensureArticleTextSync a₁ s).2) := by
    rw [h1]
    simp [ensureArticleTextSync, h₂t, h₂c, hcache, hpset]
  refine ⟨by rw [h1], by rw [h2], by rw [h2, h1]; simp [h₁c], ?_, ?_⟩
  · rw [h2, h1]
    simpa using hpset
  · intro c st
    exact ⟨rfl, rfl⟩

/-- Witness for C8: from the empty fetch state, two articles of chunk 5
dedup onto promise 0 with a single network request. -/
theorem C8_fetch_dedup_witness :
    ((⟨1, 5, none⟩ : FsArticle).chunkId = 5 ∧ (⟨2, 5, none⟩ : FsArticle).chunkId = 5 ∧
      (⟨1, 5, none⟩ : FsArticle).text = none ∧ (⟨2, 5, none⟩ : FsArticle).text = none ∧
      jsMapGet c7s0.chunkCache 5 = none ∧ jsMapGet c7s0.chunkFetchPromises 5 = none) ∧
    ((ensureArticleTextSync ⟨1, 5, none⟩ c7s0).1 = .awaiting ⟨1, 5, none⟩ c7s0.nextPromiseId ∧
      (ensureArticleTextSync ⟨2, 5, none⟩ (ensureArticleTextSync ⟨1, 5, none⟩ c7s0).2).1 =
        .awaiting ⟨2, 5, none⟩ c7s0.nextPromiseId ∧
      (ensureArticleTextSync ⟨2, 5, none⟩ (ensureArticleTextSync ⟨1, 5, none⟩ c7s0).2).2.networkLog =
        c7s0.networkLog ++ [5] ∧
      jsMapGet (ensureArticleTextSync ⟨2, 5, none⟩
          (ensureArticleTextSync ⟨1, 5, none⟩ c7s0).2).2.chunkFetchPromises 5 =
        some c7s0.nextPromiseId ∧
      (∀ c st,
        (ensureArticleTextResume ⟨1, 5, none⟩ (.resolved c) st).1 =
          .ok (applyChunkText ⟨1, 5, none⟩ c) ∧
        (ensureArticleTextResume ⟨2, 5, none⟩ (.resolved c) st).1 =
          .ok (applyChunkText ⟨2, 5, none⟩ c))) :=
  ⟨⟨by decide, by decide, by decide, by decide, by decide, by decide⟩,
    C8_fetch_dedup c7s0 ⟨1, 5, none⟩ ⟨2, 5, none⟩ 5
      (by decide) (by decide) (by decide) (by decide) (by decide) (by decide)⟩

/-! ## Decay-factor claim -/

/-- Claim C4: for every category, the decay factor equals
`max(0.1, 0.5 ^ hoursSinceLastEngagement)` (with
`hoursSinceLastEngagement = (now - lastEngaged) / 3600000` in exact
arithmetic); it is non-increasing as elapsed time since the last engagement
increases, never drops below the floor 0.1, and equals 0.5 for a category
that has never been engaged. -/
theorem C4_decay_factor (m : String → Option Int) (cat : String) :
    (∀ now : Int, m cat = none → getDecayFactor m now cat = 0.5) ∧
    (∀ (now t : Int), m cat = some t → t ≠ 0 →
        getDecayFactor m now cat =
          max 0.1 ((0.5 : ℝ) ^ (((now - t : Int) : ℝ) / (1000 * 60 * 60)))) ∧
    (∀ now : Int, (0.1 : ℝ) ≤ getDecayFactor m now cat) ∧
    (∀ (t now₁ now₂ : Int), m cat = some t → now₁ ≤ now₂ →
        getDecayFactor m now₂ cat ≤ getDecayFactor m now₁ cat) := by
  refine ⟨?_, ?_, ?_, ?_⟩
  · intro now hm
    simp [getDecayFactor, hm]
  · intro now t hm ht
    simp [getDecayFactor, hm, ht]
  · intro now
    unfold getDecayFactor
    match hm : m cat with
    | none => norm_num
    | some t =>
        by_cases ht : t = 0
        · simp [ht]; norm_num
        · simp only [if_neg ht]
          exact le_max_left _ _
  · intro t now₁ now₂ hm hle
    unfold getDecayFactor
    rw [hm]
    by_cases ht : t = 0
    · simp [ht]
    · simp only [if_neg ht]
      refine max_le_max le_rfl ?_
      refine Real.rpow_le_rpow_of_exponent_ge (by norm_num) (by norm_num) ?_
      have hc : ((now₁ - t : Int) : ℝ) ≤ ((now₂ - t : Int) : ℝ) := by
        exact_mod_cast Int.sub_le_sub_right hle t
      have hpos : (0 : ℝ) ≤ 1000 * 60 * 60 := by norm_num
      exact div_le_div_of_nonneg_right hc hpos

/-- Witness for C4: category "x" engaged one hour after the epoch, clock
read at two and three hours, never-engaged category "y". -/
theorem C4_decay_factor_witness :
    (c4engaged "y" = none ∧ getDecayFactor c4engaged 7200000 "y" = 0.5) ∧
    (c4engaged "x" = some 3600000 ∧ (3600000 : Int) ≠ 0 ∧
      getDecayFactor c4engaged 7200000 "x" =
        max 0.1 ((0.5 : ℝ) ^ (((7200000 - 3600000 : Int) : ℝ) / (1000 * 60 * 60)))) ∧
    ((7200000 : Int) ≤ 10800000 ∧
      getDecayFactor c4engaged 10800000 "x" ≤ getDecayFactor c4engaged 7200000 "x") ∧
    (0.1 : ℝ) ≤ getDecayFactor c4engaged 7200000 "x" :=
  ⟨⟨by decide, (C4_decay_factor c4engaged "y").1 7200000 (by decide)⟩,
   ⟨by decide, by decide,
     (C4_decay_factor c4engaged "x").2.1 7200000 3600000 (by decide) (by decide)⟩,
   ⟨by decide,
     (C4_decay_factor c4engaged "x").2.2.2 3600000 7200000 10800000 (by decide) (by decide)⟩,
   (C4_decay_factor c4engaged "x").2.2.1 7200000⟩

/-! ## Engine helper lemmas -/

theorem mem_idsInsert_self (l : List Nat) (x : Nat) : x ∈ idsInsert l x := by
  by_cases h : x ∈ l <;> simp [idsInsert, h]

theorem mem_idsInsert_of_mem {l : List Nat} {y : Nat} (x : Nat) (h : y ∈ l) :
    y ∈ idsInsert l x := by
  by_cases hx : x ∈ l <;> simp [idsInsert, hx, h]

theorem idsInsert_subset (l : List Nat) (x : Nat) : l ⊆ idsInsert l x :=
  fun _ h => mem_idsInsert_of_mem x h

theorem drawRand_snd (s : EngineState) : (drawRand s).2 = { s with rix := s.rix + 1 } := rfl

theorem drawIndex_snd (s : EngineState) :
    (drawIndex s).2 = { s with rix := s.rix + 1 } := rfl

theorem drawIndices_snd (n : Nat) : ∀ s : EngineState,
    ∃ k, (drawIndices n s).2 = { s with rix := k } := by
  induction n with
  | zero => intro s; exact ⟨s.rix, rfl⟩
  | succ m ih =>
      intro s
      obtain ⟨k, hk⟩ := ih { s with rix := s.rix + 1 }
      refine ⟨k, ?_⟩
      simp only [drawIndices, drawIndex, drawRand]
      rw [hk]

theorem rouletteDraw_snd (s : EngineState) :
    ∃ k, (rouletteDraw s).2 = { s with rix := k } := by
  unfold rouletteDraw
  simp only [drawRand]
  split
  · split
    · exact ⟨s.rix + 1, rfl⟩
    · exact ⟨s.rix + 1 + 1, rfl⟩
  · exact ⟨s.rix + 1, rfl⟩

theorem pickBest_snd (posts : List (Nat × Post)) (s : EngineState) :
    ∃ k, (pickBest posts s).2 = { s with rix := k } := by
  unfold pickBest
  simp only [drawRand]
  split
  · exact ⟨s.rix + 1 + 1, rfl⟩
  · split
    · exact ⟨s.rix + 1 + 1, rfl⟩
    · exact ⟨s.rix + 1 + 1, rfl⟩

theorem randomScanUnseen_snd (fuel : Nat) : ∀ s : EngineState,
    ∃ k, (randomScanUnseen fuel s).2 = { s with rix := k } := by
  induction fuel with
  | zero => intro s; exact ⟨s.rix, rfl⟩
  | succ m ih =>
      intro s
      simp only [randomScanUnseen, drawIndex, drawRand]
      split
      · obtain ⟨k, hk⟩ := ih { s with rix := s.rix + 1 }
        exact ⟨k, hk⟩
      · exact ⟨s.rix + 1, rfl⟩

theorem randomScanUnseen_found (fuel : Nat) : ∀ (s : EngineState) (i : Nat),
    (randomScanUnseen fuel s).1 = some i →
    (getPostAt s i).id ∉ s.seenPostIds := by
  induction fuel with
  | zero => intro s i h; simp [randomScanUnseen] at h
  | succ m ih =>
      intro s i h
      simp only [randomScanUnseen, drawIndex, drawRand] at h
      split at h
      · exact ih { s with rix := s.rix + 1 } i h
      · rename_i hns
        obtain rfl : _ = i := Option.some.inj h
        exact hns

theorem markPostSeenAt_spec (i : Nat) (s : EngineState) :
    (markPostSeenAt i s).1.id = (getPostAt s i).id ∧
    (markPostSeenAt i s).2.seenPostIds = idsInsert s.seenPostIds (getPostAt s i).id ∧
    (markPostSeenAt i s).2.categoryScores = s.categoryScores ∧
    (markPostSeenAt i s).2.exploredCategories = s.exploredCategories ∧
    (markPostSeenAt i s).2.prefetchQueue = s.prefetchQueue := by
  refine ⟨rfl, rfl, rfl, rfl, rfl⟩

theorem finishRandomPost_spec (i : Nat) (s : EngineState) :
    (finishRandomPost i s).1.id = (getPostAt s i).id ∧
    (finishRandomPost i s).2.seenPostIds = idsInsert s.seenPostIds (getPostAt s i).id ∧
    (finishRandomPost i s).2.categoryScores = s.categoryScores ∧
    (finishRandomPost i s).2.exploredCategories = s.exploredCategories ∧
    (finishRandomPost i s).2.prefetchQueue = s.prefetchQueue := by
  refine ⟨rfl, rfl, rfl, rfl, rfl⟩

theorem getRandomPost_spec (s : EngineState) :
    (getRandomPost s).1.id ∈ (getRandomPost s).2.seenPostIds ∧
    s.seenPostIds ⊆ (getRandomPost s).2.seenPostIds ∧
    (getRandomPost s).2.categoryScores = s.categoryScores ∧
    (getRandomPost s).2.exploredCategories = s.exploredCategories ∧
    (getRandomPost s).2.prefetchQueue = s.prefetchQueue := by
  unfold getRandomPost
  cases hscan : randomScanUnseen 1000 s with
  | mk o s1 =>
      obtain ⟨k, hk⟩ : ∃ k, s1 = { s with rix := k } := by
        have := randomScanUnseen_snd 1000 s
        rw [hscan] at this
        exact this
      subst hk
      cases o with
      | some i =>
          dsimp only
          obtain ⟨h1, h2, h3, h4, h5⟩ := finishRandomPost_spec i { s with rix := k }
          refine ⟨?_, ?_, h3, h4, h5⟩
          · rw [h1, h2]; exact mem_idsInsert_self _ _
          · rw [h2]; exact idsInsert_subset _ _
      | none =>
          dsimp only [drawIndex, drawRand]
          obtain ⟨h1, h2, h3, h4, h5⟩ :=
            finishRandomPost_spec
              (Int.toNat (mathFloor (EngineState.rng { s with rix := k } k *
                (EngineState.pagesArr { s with rix := k }).length)))
              { s with rix := k + 1 }
          refine ⟨?_, ?_, h3, h4, h5⟩
          · rw [h1, h2]; exact mem_idsInsert_self _ _
          · rw [h2]; exact idsInsert_subset _ _

theorem getRandomPost_unseen (s : EngineState)
    (h : (randomScanUnseen 1000 s).1 ≠ none) :
    (getRandomPost s).1.id ∉ s.seenPostIds := by
  unfold getRandomPost
  cases hscan : randomScanUnseen 1000 s with
  | mk o s1 =>
      obtain ⟨k, hk⟩ : ∃ k, s1 = { s with rix := k } := by
        have := randomScanUnseen_snd 1000 s
        rw [hscan] at this
        exact this
      subst hk
      cases o with
      | some i =>
          dsimp only
          have hfound := randomScanUnseen_found 1000 s i (by rw [hscan])
          obtain ⟨h1, _, _, _, _⟩ := finishRandomPost_spec i { s with rix := k }
          rw [h1]
          exact hfound
      | none => exact absurd (by rw [hscan]) h

theorem rouletteOverride_spec (i : Nat) (rc : Option String) (p : Post)
    (s : EngineState) :
    (rouletteOverride i rc p s).1.id = p.id ∧
    (rouletteOverride i rc p s).2.seenPostIds = s.seenPostIds ∧
    (rouletteOverride i rc p s).2.categoryScores = s.categoryScores ∧
    (rouletteOverride i rc p s).2.exploredCategories = s.exploredCategories ∧
    (rouletteOverride i rc p s).2.prefetchQueue = s.prefetchQueue := by
  unfold rouletteOverride
  cases rc with
  | none => exact ⟨rfl, rfl, rfl, rfl, rfl⟩
  | some c =>
      dsimp only
      split
      · exact ⟨rfl, rfl, rfl, rfl, rfl⟩
      · exact ⟨rfl, rfl, rfl, rfl, rfl⟩

theorem markAndBookkeep_spec (i : Nat) (rc : Option String) (s : EngineState) :
    (markAndBookkeep i rc s).1.id = (getPostAt s i).id ∧
    (markAndBookkeep i rc s).2.seenPostIds = idsInsert s.seenPostIds (getPostAt s i).id ∧
    (markAndBookkeep i rc s).2.categoryScores = s.categoryScores ∧
    (markAndBookkeep i rc s).2.exploredCategories = s.exploredCategories ∧
    (markAndBookkeep i rc s).2.prefetchQueue = s.prefetchQueue := by
  unfold markAndBookkeep
  simp only [markPostSeenAt]
  split
  · rename_i hempty
    obtain ⟨g1, g2, g3, g4, g5⟩ := rouletteOverride_spec i rc _ _
    exact ⟨g1, g2, g3, g4, g5⟩
  · rename_i hnonempty
    split
    · obtain ⟨g1, g2, g3, g4, g5⟩ := rouletteOverride_spec i rc _ _
      exact ⟨g1, g2, g3, g4, g5⟩
    · obtain ⟨g1, g2, g3, g4, g5⟩ := rouletteOverride_spec i rc _ _
      exact ⟨g1, g2, g3, g4, g5⟩

theorem writeScores_spec (s : EngineState) (L : List (Nat × Post)) :
    (writeScores s L).seenPostIds = s.seenPostIds ∧
    (writeScores s L).categoryScores = s.categoryScores ∧
    (writeScores s L).exploredCategories = s.exploredCategories ∧
    (writeScores s L).prefetchQueue = s.prefetchQueue ∧
    (writeScores s L).rix = s.rix := by
  refine ⟨rfl, rfl, rfl, rfl, rfl⟩

theorem getD_zero_mem {α : Type} (l : List α) (d : α) (h : l ≠ []) :
    l.getD 0 d ∈ l := by
  cases l with
  | nil => exact absurd rfl h
  | cons x xs => simp [List.getD]

theorem weightedWalk_mem : ∀ (l : List (Nat × Post)) (t m a : ℝ) (best : Nat × Post),
    weightedWalk l t m a best = best ∨ weightedWalk l t m a best ∈ l := by
  intro l
  induction l with
  | nil => intro t m a best; left; rfl
  | cons q rest ih =>
      intro t m a best
      unfold weightedWalk
      split
      · rcases ih t m (a + (q.2.score - m)) q with h | h
        · right; rw [h]; exact List.mem_cons_self q rest
        · right; exact List.mem_cons_of_mem q h
      · left; rfl

theorem maxLoop_mem : ∀ (l : List (Nat × Post)) (best : Nat × Post) (h0 : Option ℝ),
    maxLoop l best h0 = best ∨ maxLoop l best h0 ∈ l := by
  intro l
  induction l with
  | nil => intro best h0; left; rfl
  | cons q rest ih =>
      intro best h0
      cases h0 with
      | none =>
          rcases ih q (some q.2.score) with h | h
          · right; rw [show maxLoop (q :: rest) best none = maxLoop rest q (some q.2.score) from rfl, h]
            exact List.mem_cons_self q rest
          · right
            rw [show maxLoop (q :: rest) best none = maxLoop rest q (some q.2.score) from rfl]
            exact List.mem_cons_of_mem q h
      | some hsc =>
          unfold maxLoop
          split
          · rcases ih q (some q.2.score) with h | h
            · right; rw [h]; exact List.mem_cons_self q rest
            · right; exact List.mem_cons_of_mem q h
          · rcases ih best (some hsc) with h | h
            · left; exact h
            · right; exact List.mem_cons_of_mem q h

theorem pickBest_mem (posts : List (Nat × Post)) (s : EngineState)
    (h : posts ≠ []) : (pickBest posts s).1 ∈ posts := by
  unfold pickBest
  dsimp only [drawRand]
  split
  · rcases weightedWalk_mem posts.reverse _ _ 0 (posts.getD 0 (0, defaultPost)) with
      hw | hw
    · dsimp only; rw [hw]; exact getD_zero_mem posts _ h
    · dsimp only; exact (List.mem_reverse).1 hw
  · split
    · rcases maxLoop_mem posts (posts.getD 0 (0, defaultPost)) none with hm | hm
      · dsimp only; rw [hm]; exact getD_zero_mem posts _ h
      · dsimp only; exact hm
    · dsimp only; exact getD_zero_mem posts _ h

theorem firstMax_ge {posts : List (Nat × Post)} {q : Nat × Post}
    (h : FirstMax posts q) : ∀ p ∈ posts, p.2.score ≤ q.2.score := by
  obtain ⟨l1, l2, rfl, h1, h2⟩ := h
  intro p hp
  rcases List.mem_append.1 hp with hp | hp
  · exact (h1 p hp).le
  · rcases List.mem_cons.1 hp with rfl | hp
    · exact le_rfl
    · exact h2 p hp

theorem maxLoop_firstMax : ∀ (l : List (Nat × Post)) (best : Nat × Post),
    FirstMax (best :: l) (maxLoop l best (some best.2.score)) := by
  intro l
  induction l with
  | nil =>
      intro best
      exact ⟨[], [], rfl, by simp, by simp⟩
  | cons q rest ih =>
      intro best
      unfold maxLoop
      split
      · rename_i hlt
        obtain ⟨l1, l2, heq, h1, h2⟩ := ih q
        have hqle : q.2.score ≤ (maxLoop rest q (some q.2.score)).2.score :=
          firstMax_ge ⟨l1, l2, heq, h1, h2⟩ q (List.mem_cons_self q rest)
        refine ⟨best :: l1, l2, by rw [heq]; rfl, ?_, h2⟩
        intro p hp
        rcases List.mem_cons.1 hp with rfl | hp
        · exact lt_of_lt_of_le hlt hqle
        · exact h1 p hp
      · rename_i hnlt
        have hqle : q.2.score ≤ best.2.score := not_lt.1 hnlt
        obtain ⟨l1, l2, heq, h1, h2⟩ := ih best
        cases l1 with
        | nil =>
            simp only [List.nil_append] at heq
            have hbest : maxLoop rest best (some best.2.score) = best :=
              (List.cons.inj heq).1.symm
            have hrest : rest = l2 := (List.cons.inj heq).2
            rw [hbest] at h2 ⊢
            refine ⟨[], q :: rest, rfl, by simp, ?_⟩
            intro p hp
            rcases List.mem_cons.1 hp with rfl | hp
            · exact hqle
            · exact h2 p (hrest ▸ hp)
        | cons b l1t =>
            have hb : best = b := (List.cons.inj heq).1
            subst hb
            have hrest : rest = l1t ++ maxLoop rest best (some best.2.score) :: l2 :=
              (List.cons.inj heq).2
            have hbestlt : best.2.score < (maxLoop rest best (some best.2.score)).2.score :=
              h1 best (List.mem_cons_self _ _)
            refine ⟨best :: q :: l1t, l2,
              by rw [List.cons_append, List.cons_append, ← hrest], ?_, h2⟩
            intro p hp
            rcases List.mem_cons.1 hp with rfl | hp
            · exact hbestlt
            · rcases List.mem_cons.1 hp with rfl | hp
              · exact lt_of_le_of_lt hqle hbestlt
              · exact h1 p (List.mem_cons_of_mem _ hp)

/-! ## Pick-step claim -/

/-- Claim C3 (amended): over a non-empty scored sample, with probability 0.4
(first draw below 0.4) the winner comes from the weighted-random walk over
the sample; otherwise a second draw decides: if it exceeds 0.3 (overall
probability 0.42) the winner is the maximum-score record with ties broken by
encounter order, and otherwise (overall probability 0.18) the winner is
simply the first record of the sample — the unamended claim, which gives the
highest-score rule the whole remaining 0.6, fails on this third branch. -/
theorem C3_pick_step (potentialPosts : List (Nat × Post)) (s : EngineState)
    (hne : potentialPosts ≠ []) :
    (s.rng s.rix < 2/5 → (pickBest potentialPosts s).1 ∈ potentialPosts) ∧
    (¬ s.rng s.rix < 2/5 → s.rng (s.rix + 1) > 3/10 →
        FirstMax potentialPosts (pickBest potentialPosts s).1) ∧
    (¬ s.rng s.rix < 2/5 → ¬ s.rng (s.rix + 1) > 3/10 →
        (pickBest potentialPosts s).1 = potentialPosts.getD 0 (0, defaultPost)) := by
  refine ⟨fun _ => pickBest_mem potentialPosts s hne, ?_, ?_⟩
  · intro h1 h2
    unfold pickBest
    dsimp only [drawRand]
    rw [if_neg h1, if_pos h2]
    cases potentialPosts with
    | nil => exact absurd rfl hne
    | cons p0 rest =>
        have h0 : (p0 :: rest).getD 0 (0, defaultPost) = p0 := rfl
        rw [h0]
        exact maxLoop_firstMax rest p0
  · intro h1 h2
    unfold pickBest
    dsimp only [drawRand]
    rw [if_neg h1, if_neg h2]

/-- Witness for C3 at the concrete draws (1/2, 1/5): neither pick branch
runs and the winner is the first sampled record. -/
theorem C3_pick_step_witness :
    c3posts ≠ [] ∧ (pickBest c3posts c3state).1 = c3posts.getD 0 (0, defaultPost) :=
  ⟨List.cons_ne_nil _ _,
    (C3_pick_step c3posts c3state (List.cons_ne_nil _ _)).2.2
      (by with_unfolding_all decide) (by with_unfolding_all decide)⟩

/-- Counterexample to claim C3 as stated: with the first draw 1/2 (not
below 0.4) and the second draw 1/5 (not above 0.3) the code runs neither
pick branch, so the winner is the first sampled record — which is not a
maximum-score record, since the second sample entry scores strictly
higher. -/
theorem C3_counterexample :
    ¬ c3state.rng c3state.rix < 2/5 ∧
    ¬ c3state.rng (c3state.rix + 1) > 3/10 ∧
    (pickBest c3posts c3state).1 = c3postA ∧
    c3postA.2.score < c3postB.2.score ∧ c3postB ∈ c3posts := by
  refine ⟨by with_unfolding_all decide, by with_unfolding_all decide,
    by with_unfolding_all rfl, ?_, by simp [c3posts]⟩
  show (0 : ℝ) < 1
  norm_num

theorem getD_set_id (arr : List Post) (i : Nat) (p : Post)
    (hp : p.id = (arr.getD i defaultPost).id) (j : Nat) :
    ((arr.set i p).getD j defaultPost).id = (arr.getD j defaultPost).id := by
  by_cases hij : i = j
  · subst hij
    by_cases hlen : i < arr.length
    · rw [List.getD_eq_getElem?_getD, List.getElem?_set_self hlen]
      exact hp
    · simp [List.getElem?_set, hlen, List.getElem?_eq_none (Nat.le_of_not_lt hlen)]
  · rw [List.getD_eq_getElem?_getD, List.getD_eq_getElem?_getD, List.getElem?_set_ne hij]

theorem foldl_set_preserves_id (L : List (Nat × Post)) : ∀ (arr : List Post),
    (∀ e ∈ L, e.2.id = (arr.getD e.1 defaultPost).id) →
    ∀ j, ((L.foldl (fun a e => a.set e.1 e.2) arr).getD j defaultPost).id =
      (arr.getD j defaultPost).id := by
  induction L with
  | nil => intro arr _ j; rfl
  | cons e rest ih =>
      intro arr hL j
      have he : e.2.id = (arr.getD e.1 defaultPost).id := hL e (List.mem_cons_self _ _)
      have hrest : ∀ x ∈ rest, x.2.id = ((arr.set e.1 e.2).getD x.1 defaultPost).id := by
        intro x hx
        rw [getD_set_id arr e.1 e.2 he x.1]
        exact hL x (List.mem_cons_of_mem _ hx)
      calc ((List.foldl (fun a x => a.set x.1 x.2) (arr.set e.1 e.2) rest).getD j
              defaultPost).id
          = ((arr.set e.1 e.2).getD j defaultPost).id := ih (arr.set e.1 e.2) hrest j
        _ = (arr.getD j defaultPost).id := getD_set_id arr e.1 e.2 he j

theorem getPostAt_writeScores_id (s : EngineState) (L : List (Nat × Post))
    (hL : ∀ e ∈ L, e.2.id = (getPostAt s e.1).id) (j : Nat) :
    (getPostAt (writeScores s L) j).id = (getPostAt s j).id :=
  foldl_set_preserves_id L s.pagesArr hL j

theorem sampleExhaustedRetry_spec (s : EngineState) :
    (sampleExhaustedRetry s).1.id ∈ (sampleExhaustedRetry s).2.seenPostIds ∧
    s.seenPostIds ⊆ (sampleExhaustedRetry s).2.seenPostIds ∧
    (sampleExhaustedRetry s).2.categoryScores = s.categoryScores ∧
    (sampleExhaustedRetry s).2.exploredCategories = s.exploredCategories ∧
    (sampleExhaustedRetry s).2.prefetchQueue = s.prefetchQueue := by
  unfold sampleExhaustedRetry
  cases hscan : randomScanUnseen 10000 s with
  | mk o s1 =>
      obtain ⟨k, hk⟩ : ∃ k, s1 = { s with rix := k } := by
        have := randomScanUnseen_snd 10000 s
        rw [hscan] at this
        exact this
      subst hk
      cases o with
      | some i =>
          exact ⟨mem_idsInsert_self _ _, idsInsert_subset _ _, rfl, rfl, rfl⟩
      | none =>
          exact ⟨mem_idsInsert_self _ _, idsInsert_subset _ _, rfl, rfl, rfl⟩

theorem sampleExhaustedRetry_unseen (s : EngineState)
    (h : (randomScanUnseen 10000 s).1 ≠ none) :
    (sampleExhaustedRetry s).1.id ∉ s.seenPostIds := by
  unfold sampleExhaustedRetry
  cases hscan : randomScanUnseen 10000 s with
  | mk o s1 =>
      obtain ⟨k, hk⟩ : ∃ k, s1 = { s with rix := k } := by
        have := randomScanUnseen_snd 10000 s
        rw [hscan] at this
        exact this
      subst hk
      cases o with
      | some i =>
          have hfound := randomScanUnseen_found 10000 s i (by rw [hscan])
          exact hfound
      | none => exact absurd (by rw [hscan]) h

set_option maxRecDepth 4000 in
theorem scoredPrefix_snd (s2 : EngineState) :
    ∃ k, (drawIndices 10000 (rouletteDraw s2).2).2 = { s2 with rix := k } := by
  obtain ⟨k3, h3⟩ := rouletteDraw_snd s2
  obtain ⟨k4, h4⟩ := drawIndices_snd 10000 (rouletteDraw s2).2
  refine ⟨k4, h4.trans ?_⟩
  rw [h3]

theorem scoredPick_spec (v rc : Option String) (agg : ℚ) (idxs : List Nat)
    (s4 : EngineState) :
    (scoredPick v rc agg idxs s4).1.id ∈ (scoredPick v rc agg idxs s4).2.seenPostIds ∧
    s4.seenPostIds ⊆ (scoredPick v rc agg idxs s4).2.seenPostIds ∧
    (scoredPick v rc agg idxs s4).2.categoryScores = s4.categoryScores ∧
    (scoredPick v rc agg idxs s4).2.exploredCategories = s4.exploredCategories ∧
    (scoredPick v rc agg idxs s4).2.prefetchQueue = s4.prefetchQueue := by
  unfold scoredPick
  dsimp only
  split
  · exact sampleExhaustedRetry_spec _
  · obtain ⟨k6, hk6⟩ := pickBest_snd _ _
    rw [hk6]
    refine ⟨?_, ?_, (markAndBookkeep_spec _ _ _).2.2.1,
      (markAndBookkeep_spec _ _ _).2.2.2.1, (markAndBookkeep_spec _ _ _).2.2.2.2⟩
    · rw [(markAndBookkeep_spec _ _ _).1, (markAndBookkeep_spec _ _ _).2.1]
      exact mem_idsInsert_self _ _
    · rw [(markAndBookkeep_spec _ _ _).2.1]
      exact idsInsert_subset _ _

set_option maxRecDepth 100000 in
theorem scoredSelection_spec (s2 : EngineState) :
    (scoredSelection s2).1.id ∈ (scoredSelection s2).2.seenPostIds ∧
    s2.seenPostIds ⊆ (scoredSelection s2).2.seenPostIds ∧
    (scoredSelection s2).2.categoryScores = s2.categoryScores ∧
    (scoredSelection s2).2.exploredCategories = s2.exploredCategories ∧
    (scoredSelection s2).2.prefetchQueue = s2.prefetchQueue := by
  obtain ⟨k4, hk4⟩ := scoredPrefix_snd s2
  have hseen : ((drawIndices 10000 (rouletteDraw s2).2).2).seenPostIds = s2.seenPostIds := by
    rw [hk4]
  have hscores : ((drawIndices 10000 (rouletteDraw s2).2).2).categoryScores =
      s2.categoryScores := by rw [hk4]
  have hexp : ((drawIndices 10000 (rouletteDraw s2).2).2).exploredCategories =
      s2.exploredCategories := by rw [hk4]
  have hq : ((drawIndices 10000 (rouletteDraw s2).2).2).prefetchQueue =
      s2.prefetchQueue := by rw [hk4]
  have heq : scoredSelection s2 = scoredPick
      (if 2 ≤ s2.consecutiveSameCategory then s2.lastTopCategory else none)
      (rouletteDraw s2).1 (s2.algorithmAggressiveness / 50)
      (drawIndices 10000 (rouletteDraw s2).2).1
      (drawIndices 10000 (rouletteDraw s2).2).2 := by
    unfold scoredSelection
    rfl
  have h := scoredPick_spec
    (if 2 ≤ s2.consecutiveSameCategory then s2.lastTopCategory else none)
    (rouletteDraw s2).1 (s2.algorithmAggressiveness / 50)
    (drawIndices 10000 (rouletteDraw s2).2).1
    (drawIndices 10000 (rouletteDraw s2).2).2
  rw [hseen, hscores, hexp, hq] at h
  rw [heq]
  exact h

theorem getNextPost_spec (s : EngineState) :
    (getNextPost s).1.id ∈ (getNextPost s).2.seenPostIds ∧
    s.seenPostIds ⊆ (getNextPost s).2.seenPostIds ∧
    (getNextPost s).2.categoryScores = s.categoryScores ∧
    (getNextPost s).2.exploredCategories = s.exploredCategories ∧
    (getNextPost s).2.prefetchQueue = s.prefetchQueue := by
  unfold getNextPost
  split
  · exact getRandomPost_spec s
  · dsimp only [drawRand]
    split
    · exact getRandomPost_spec _
    · exact scoredSelection_spec _


theorem pick_tail_unseen (rc : Option String) (P : List (Nat × Post))
    (s4 : EngineState) (hPne : P ≠ [])
    (hid : ∀ e ∈ P, e.2.id = (getPostAt s4 e.1).id)
    (hunseen : ∀ e ∈ P, (getPostAt s4 e.1).id ∉ s4.seenPostIds) :
    (markAndBookkeep (pickBest P (writeScores s4 P)).1.1 rc
        (pickBest P (writeScores s4 P)).2).1.id ∉ s4.seenPostIds := by
  obtain ⟨k6, hk6⟩ := pickBest_snd P (writeScores s4 P)
  rw [hk6, (markAndBookkeep_spec _ _ _).1]
  show (getPostAt (writeScores s4 P) (pickBest P (writeScores s4 P)).1.1).id ∉
    s4.seenPostIds
  rw [getPostAt_writeScores_id s4 P hid]
  exact hunseen _ (pickBest_mem P (writeScores s4 P) hPne)

set_option maxRecDepth 4000 in
theorem scoredPick_unseen (v rc : Option String) (agg : ℚ) (idxs : List Nat)
    (s4 : EngineState)
    (h : scoredPickFallback v rc agg idxs s4 = false) :
    (scoredPick v rc agg idxs s4).1.id ∉ s4.seenPostIds := by
  unfold scoredPick
  unfold scoredPickFallback at h
  dsimp only at h ⊢
  split
  · rename_i hempty
    rw [hempty, Bool.true_and] at h
    refine sampleExhaustedRetry_unseen _ ?_
    intro hn
    rw [hn] at h
    simp at h
  · rename_i hne
    refine pick_tail_unseen rc _ s4 ?_ ?_ ?_
    · intro hP
      exact hne (by rw [List.isEmpty_iff]; exact List.map_eq_nil_iff.1 hP)
    · intro e he
      obtain ⟨j, _, rfl⟩ := List.mem_map.1 he
      rfl
    · intro e he
      obtain ⟨j, hj, rfl⟩ := List.mem_map.1 he
      exact of_decide_eq_true (List.mem_filter.1 hj).2

set_option maxRecDepth 4000 in
theorem scoredSelection_unseen (s2 : EngineState)
    (h : scoredSelectionFallback s2 = false) :
    (scoredSelection s2).1.id ∉ s2.seenPostIds := by
  obtain ⟨k4, hk4⟩ := scoredPrefix_snd s2
  have hseen : ((drawIndices 10000 (rouletteDraw s2).2).2).seenPostIds = s2.seenPostIds := by
    rw [hk4]
  have heq : scoredSelection s2 = scoredPick
      (if 2 ≤ s2.consecutiveSameCategory then s2.lastTopCategory else none)
      (rouletteDraw s2).1 (s2.algorithmAggressiveness / 50)
      (drawIndices 10000 (rouletteDraw s2).2).1
      (drawIndices 10000 (rouletteDraw s2).2).2 := by
    unfold scoredSelection
    rfl
  have heqf : scoredSelectionFallback s2 = scoredPickFallback
      (if 2 ≤ s2.consecutiveSameCategory then s2.lastTopCategory else none)
      (rouletteDraw s2).1 (s2.algorithmAggressiveness / 50)
      (drawIndices 10000 (rouletteDraw s2).2).1
      (drawIndices 10000 (rouletteDraw s2).2).2 := by
    unfold scoredSelectionFallback
    rfl
  rw [heqf] at h
  rw [heq]
  have hres := scoredPick_unseen _ _ _ _ _ h
  rw [hseen] at hres
  exact hres

set_option maxRecDepth 100000 in
theorem getNextPost_unseen (s : EngineState) (h : fallbackExhausted s = false) :
    (getNextPost s).1.id ∉ s.seenPostIds := by
  unfold getNextPost
  unfold fallbackExhausted at h
  by_cases hc1 : s.exploreMode = true ∨ s.algorithmAggressiveness = 0
  · rw [if_pos hc1] at h ⊢
    refine getRandomPost_unseen s ?_
    intro hn
    rw [hn] at h
    simp at h
  · rw [if_neg hc1] at h ⊢
    dsimp only [drawRand] at h ⊢
    by_cases hc2 : 5 + (mathFloor (s.rng s.rix * 6)).toNat ≤ s.postsSinceRandom + 1
    · rw [if_pos hc2] at h ⊢
      refine getRandomPost_unseen _ ?_
      intro hn
      rw [hn] at h
      simp at h
    · rw [if_neg hc2] at h ⊢
      exact scoredSelection_unseen
        { s with postsSinceRandom := s.postsSinceRandom + 1, rix := s.rix + 1 } h

theorem fillAux_spec (fuel : Nat) : ∀ s : EngineState,
    s.seenPostIds ⊆ (fillAux fuel s).seenPostIds ∧
    (fillAux fuel s).categoryScores = s.categoryScores ∧
    (fillAux fuel s).exploredCategories = s.exploredCategories := by
  induction fuel with
  | zero => intro s; exact ⟨fun x hx => hx, rfl, rfl⟩
  | succ m ih =>
      intro s
      unfold fillAux
      split
      · obtain ⟨g1, g2, g3, g4, g5⟩ := getNextPost_spec s
        obtain ⟨i1, i2, i3⟩ := ih { (getNextPost s).2 with
          prefetchQueue := (getNextPost s).2.prefetchQueue ++ [serializePost (getNextPost s).1] }
        exact ⟨g2.trans i1, i2.trans g3, i3.trans g4⟩
      · exact ⟨fun x hx => hx, rfl, rfl⟩

theorem fillAux_queue_inv (fuel : Nat) : ∀ s : EngineState,
    QueueSeenInv s → QueueSeenInv (fillAux fuel s) := by
  induction fuel with
  | zero => intro s h; exact h
  | succ m ih =>
      intro s hInv
      unfold fillAux
      split
      · refine ih _ ?_
        intro q hq
        obtain ⟨g1, g2, g3, g4, g5⟩ := getNextPost_spec s
        rcases List.mem_append.1 hq with hq | hq
        · exact g2 (hInv q (g5 ▸ hq))
        · rw [List.mem_singleton.1 hq]
          exact g1
      · exact hInv

theorem fillAux_queue_len (fuel : Nat) : ∀ s : EngineState,
    s.prefetchQueue.length ≤ PREFETCH_SIZE →
    (fillAux fuel s).prefetchQueue.length ≤ PREFETCH_SIZE := by
  induction fuel with
  | zero => intro s h; exact h
  | succ m ih =>
      intro s hlen
      unfold fillAux
      split
      · rename_i hlt
        refine ih _ ?_
        have g5 := (getNextPost_spec s).2.2.2.2
        show ((getNextPost s).2.prefetchQueue ++ [serializePost (getNextPost s).1]).length ≤
          PREFETCH_SIZE
        rw [List.length_append, g5]
        simpa using hlt
      · exact hlen

/-! ## Selection-engine claims -/

/-- Claim C1 (amended): `getNextPost` returns a record whose id is not in
`seenPostIds` whenever the run does not end in an exhaustion fallback, i.e.
whenever at least one of its bounded random draws finds an unseen record.
An already-seen id can be returned exactly when every bounded draw hit a
seen record — which is guaranteed once every pool id has been seen, but can
also happen (see the counterexample) while unseen pool ids remain, because
the fallbacks are draw-bounded rather than exhaustive. -/
theorem C1_no_premature_repeats (s : EngineState)
    (h : fallbackExhausted s = false) :
    (getNextPost s).1.id ∉ s.seenPostIds :=
  getNextPost_unseen s h

set_option maxRecDepth 100000 in
/-- Witness for C1: a one-record pool with nothing seen; the first draw
finds the unseen record, so the fallback is not exhausted and the selected
id is fresh. -/
theorem C1_no_premature_repeats_witness :
    fallbackExhausted c1wState = false ∧
    (getNextPost c1wState).1.id ∉ c1wState.seenPostIds :=
  ⟨by with_unfolding_all decide,
    C1_no_premature_repeats c1wState (by with_unfolding_all decide)⟩

set_option maxRecDepth 100000 in
set_option maxHeartbeats 4000000 in
/-- Counterexample to claim C1 as stated: in `c1exState` the pool still
contains the unseen record with id 1, yet with an adversarial random stream
(constant 0, always drawing index 0) all 1000 draws of `getRandomPost`'s
scan hit the already-seen record 0, and the final unconditional fallback
draw returns that already-seen id. -/
theorem C1_counterexample :
    (∃ p ∈ c1exState.pagesArr, p.id ∉ c1exState.seenPostIds) ∧
    (getNextPost c1exState).1.id ∈ c1exState.seenPostIds := by
  constructor
  · exact ⟨mkTestPost 1, List.mem_cons_of_mem _ (List.mem_cons_self _ _), by decide⟩
  · with_unfolding_all decide

/-- Claim C2 (amended): processing a `RESET` message clears the per-post
seen counters and `recommendedBecause`, the prefetch queue, and the
transient counters (`postsSinceRandom`, `lastTopCategory`,
`consecutiveSameCategory`) in its reset step, and preserves the
category-score map and the explored-categories set through the whole
handler — but it does NOT clear `seenPostIds`: the reset step leaves the
set untouched, and the subsequent queue refill can only grow it. -/
theorem C2_reset_handler (s : EngineState) :
    (processReset s).categoryScores = s.categoryScores ∧
    (processReset s).exploredCategories = s.exploredCategories ∧
    s.seenPostIds ⊆ (processReset s).seenPostIds ∧
    (resetCore s).seenPostIds = s.seenPostIds ∧
    (resetCore s).postsSinceRandom = 0 ∧
    (resetCore s).lastTopCategory = none ∧
    (resetCore s).consecutiveSameCategory = 0 ∧
    (resetCore s).prefetchQueue = [] ∧
    ∀ p ∈ (resetCore s).pagesArr, p.seen = 0 ∧ p.recommendedBecause = none := by
  obtain ⟨f1, f2, f3⟩ := fillAux_spec PREFETCH_SIZE (resetCore s)
  refine ⟨f2, f3, f1, rfl, rfl, rfl, rfl, rfl, ?_⟩
  intro p hp
  obtain ⟨q, _, rfl⟩ := List.mem_map.1 hp
  exact ⟨rfl, rfl⟩

/-- Counterexample to claim C2 as stated: the claim says `seenPostIds` is
empty after `RESET`, but the handler never clears it — starting from a
state whose seen-id set is `[5]`, id 5 is still present (and the set
nonempty) after the whole `RESET` handler runs. -/
theorem C2_counterexample :
    5 ∈ (processReset c2state).seenPostIds ∧
    (processReset c2state).seenPostIds ≠ [] := by
  have h5 : (5 : Nat) ∈ (resetCore c2state).seenPostIds := by decide
  have h5f := (fillAux_spec PREFETCH_SIZE (resetCore c2state)).1 h5
  exact ⟨h5f, List.ne_nil_of_mem h5f⟩

/-- Claim C9: an `UPDATE_FILTERS` message installs the new filter sets and
clears the prefetch queue — the queue is `[]` in the handler state reached
before the refill runs — and the refilled queue is computed from scratch:
the handler result does not depend on the previous queue contents, so no
entry computed under the old filters survives. -/
theorem C9_filter_invalidation (payload : FiltersPayload) (s : EngineState) :
    (updateFiltersClear payload s).prefetchQueue = [] ∧
    processUpdateFilters payload s = fillPrefetchQueue (updateFiltersClear payload s) ∧
    ∀ q₁ q₂ : List Post,
      processUpdateFilters payload { s with prefetchQueue := q₁ } =
      processUpdateFilters payload { s with prefetchQueue := q₂ } := by
  exact ⟨rfl, rfl, fun q₁ q₂ => rfl⟩

/-- Claim C10 (amended): every record placed into the prefetch queue by
`fillPrefetchQueue` is already marked seen at enqueue time (the queue/seen
invariant is preserved by the fill, starting from any state satisfying it);
`UPDATE_FILTERS` discards the queue without removing any id from
`seenPostIds` (the clear step leaves the seen set unchanged and the refill
only grows it); the queue holds at most `PREFETCH_SIZE = 3` records, so up
to 3 unseen articles are consumed per invalidation; and a consumed id is
excluded from every subsequent selection that does not end in the
exhaustion fallback.  (The unamended "never selected again until a session
reset" fails: the exhaustion fallback can return a consumed id with no
intervening reset — see the counterexample.) -/
theorem C10_queue_consumption (s : EngineState) (hInv : QueueSeenInv s) :
    QueueSeenInv (fillPrefetchQueue s) ∧
    PREFETCH_SIZE = 3 ∧
    (s.prefetchQueue.length ≤ PREFETCH_SIZE →
      (fillPrefetchQueue s).prefetchQueue.length ≤ PREFETCH_SIZE) ∧
    (∀ payload : FiltersPayload,
      (updateFiltersClear payload s).prefetchQueue = [] ∧
      (updateFiltersClear payload s).seenPostIds = s.seenPostIds ∧
      s.seenPostIds ⊆ (processUpdateFilters payload s).seenPostIds) ∧
    (∀ s₁ : EngineState, fallbackExhausted s₁ = false →
      (getNextPost s₁).1.id ∉ s₁.seenPostIds) := by
  refine ⟨fillAux_queue_inv _ s hInv, rfl, fillAux_queue_len _ s, ?_,
    fun s₁ h => getNextPost_unseen s₁ h⟩
  intro payload
  exact ⟨rfl, rfl, (fillAux_spec PREFETCH_SIZE (updateFiltersClear payload s)).1⟩

/-- Witness for C10 at the six-record pool state `c10init` (empty queue, so
the queue/seen invariant holds vacuously). -/
theorem C10_queue_consumption_witness :
    QueueSeenInv c10init ∧ QueueSeenInv (fillPrefetchQueue c10init) :=
  ⟨fun p hp => absurd hp (List.not_mem_nil p),
    (C10_queue_consumption c10init (fun p hp => absurd hp (List.not_mem_nil p))).1⟩

set_option maxRecDepth 100000 in
set_option maxHeartbeats 4000000 in
/-- Counterexample to the "never selected again per invalidation, until a
session reset" part of claim C10: from the six-record pool of `c10init`,
the `INIT`-time fill consumes the unseen articles 0, 1, 2 into the queue;
the `UPDATE_FILTERS` handler then discards and rebuilds that queue without
unmarking them (the rebuild consumes 3, 4, 5); and the very next
`getNextPost` call — with no reset in between — returns id 0 again via the
exhaustion fallback, because by then every pool id has been consumed by
queue fills even though the user was only ever shown what was dequeued. -/
theorem C10_counterexample :
    (fillPrefetchQueue c10init).prefetchQueue.map Post.id = [0, 1, 2] ∧
    0 ∈ c10state.seenPostIds ∧
    c10state.prefetchQueue.map Post.id = [3, 4, 5] ∧
    (getNextPost c10state).1.id = 0 := by
  refine ⟨?_, ?_, ?_, ?_⟩
  · with_unfolding_all decide
  · with_unfolding_all decide
  · with_unfolding_all decide
  · with_unfolding_all decide
